import Mathlib

/-!
Verification of the CrossPacket generator (src/generate.py) against its
natural-language specification.  The Python source is shallowly embedded:
pure string transformations become functions on `List Char` / `String`,
dictionaries become association lists, the `main` driver becomes an
`Except`-valued pipeline, and the semantics of emitted target-language
code fragments are embedded as functions over explicit value types.
-/

namespace CrossPacket

/-! ## Character and string helpers -/

/-- The 26 lowercase ASCII letters; used to delimit the identifier domain
"non-empty lowercase words" of the naming round-trip property. -/
def azChars : List Char :=
  ['a','b','c','d','e','f','g','h','i','j','k','l','m',
   'n','o','p','q','r','s','t','u','v','w','x','y','z']

/-- Membership of every character of a list in `azChars`. -/
def allLowerAZ (w : List Char) : Bool := w.all (fun c => azChars.contains c)

/-- A non-empty, all-lowercase-ASCII word. -/
abbrev LowerWord (w : List Char) : Prop := w ≠ [] ∧ allLowerAZ w = true

/-- Python `text.split(sep)` for a one-character separator: always returns a
non-empty list of (possibly empty) chunks; `"".split(c) = [""]`. -/
def splitOnCh (sep : Char) : List Char → List (List Char)
  | [] => [[]]
  | c :: cs =>
    if c = sep then [] :: splitOnCh sep cs
    else
      match splitOnCh sep cs with
      | w :: ws => (c :: w) :: ws
      | [] => [[c]]

/-- Python `str.capitalize()`: first character uppercased, the rest
lowercased. -/
def capitalizeL : List Char → List Char
  | [] => []
  | c :: cs => c.toUpper :: cs.map Char.toLower

/-- The shortcut test of `to_pascal_case` (src/generate.py lines 219-221):
`text and text[0].isupper() and "_" not in text`. -/
def pascalShortcut : List Char → Bool
  | [] => false
  | c :: cs => c.isUpper && !((c :: cs).contains '_')

/-- Embeds `to_pascal_case` (src/generate.py lines 217-223) on the character-list
model of Python strings: if the text already starts with an uppercase letter
and contains no underscore it is returned unchanged, otherwise each
underscore-separated chunk is capitalized and the chunks are joined. -/
def toPascalCaseL (s : List Char) : List Char :=
  if pascalShortcut s then s else ((splitOnCh '_' s).map capitalizeL).flatten

/-- Insertion step of `to_snake_case`: the regex `(?<!^)(?=[A-Z])` places an
underscore before every uppercase letter that is not at position 0. -/
def snakeInsert : List Char → List Char
  | [] => []
  | c :: cs => c :: cs.flatMap (fun d => if d.isUpper then ['_', d] else [d])

/-- Embeds `to_snake_case` (src/generate.py lines 226-230): insert an underscore
before each internal uppercase letter, then lowercase everything. -/
def toSnakeCaseL (s : List Char) : List Char :=
  (snakeInsert s).map Char.toLower

/-- String-level `to_pascal_case`. -/
def to_pascal_case (s : String) : String := ⟨toPascalCaseL s.data⟩

/-- String-level `to_snake_case`. -/
def to_snake_case (s : String) : String := ⟨toSnakeCaseL s.data⟩

/-- Join words with single underscores (the identifier shape "composed of
underscore-separated non-empty lowercase words"). -/
def joinUnderscore : List (List Char) → List Char
  | [] => []
  | [w] => w
  | w :: ws => w ++ '_' :: joinUnderscore ws

/-! ### Facts about lowercase letters (checked once over the 26 letters) -/

theorem az_not_upper : ∀ c ∈ azChars, c.isUpper = false := by decide

theorem az_toLower_self : ∀ c ∈ azChars, c.toLower = c := by decide

theorem az_toUpper_isUpper : ∀ c ∈ azChars, (c.toUpper).isUpper = true := by decide

theorem az_toUpper_toLower : ∀ c ∈ azChars, (c.toUpper).toLower = c := by decide

theorem az_ne_underscore : ∀ c ∈ azChars, c ≠ '_' := by decide

/-! ### Splitting / joining round-trip -/

theorem splitOnCh_no_sep (sep : Char) (w : List Char) (hw : sep ∉ w) :
    splitOnCh sep w = [w] := by
  induction w with
  | nil => rfl
  | cons c cs ih =>
    have hc : c ≠ sep := fun h => hw (h ▸ List.mem_cons_self c cs)
    have hcs : sep ∉ cs := fun h => hw (List.mem_cons_of_mem _ h)
    simp [splitOnCh, hc, ih hcs]

theorem splitOnCh_append (sep : Char) (w rest : List Char) (hw : sep ∉ w) :
    splitOnCh sep (w ++ sep :: rest) = w :: splitOnCh sep rest := by
  induction w with
  | nil => simp [splitOnCh]
  | cons c cs ih =>
    have hc : c ≠ sep := fun h => hw (h ▸ List.mem_cons_self c cs)
    have hcs : sep ∉ cs := fun h => hw (List.mem_cons_of_mem _ h)
    have hne : splitOnCh sep (cs ++ sep :: rest) = cs :: splitOnCh sep rest := ih hcs
    simp [List.cons_append, splitOnCh, hc, hne]

theorem splitOnCh_joinUnderscore (ws : List (List Char)) (hne : ws ≠ [])
    (h : ∀ w ∈ ws, '_' ∉ w) :
    splitOnCh '_' (joinUnderscore ws) = ws := by
  induction ws with
  | nil => exact absurd rfl hne
  | cons w ws ih =>
    cases ws with
    | nil =>
      exact splitOnCh_no_sep '_' w (h w (List.mem_cons_self _ _))
    | cons w2 ws2 =>
      have hw : '_' ∉ w := h w (List.mem_cons_self _ _)
      have hrest : ∀ u ∈ w2 :: ws2, '_' ∉ u := fun u hu => h u (List.mem_cons_of_mem _ hu)
      have : joinUnderscore (w :: w2 :: ws2) = w ++ '_' :: joinUnderscore (w2 :: ws2) := rfl
      rw [this, splitOnCh_append '_' w _ hw, ih (by simp) hrest]

theorem allLowerAZ_mem {w : List Char} (h : allLowerAZ w = true) :
    ∀ c ∈ w, c ∈ azChars := by
  intro c hc
  have := (List.all_eq_true.mp h) c hc
  simpa [List.elem_iff] using this

theorem lowerWord_no_underscore {w : List Char} (h : LowerWord w) : '_' ∉ w := by
  intro hmem
  have hc := allLowerAZ_mem h.2 '_' hmem
  simp [azChars] at hc

/-! ### Behaviour of `capitalize` and the snake-case insertion on lowercase words -/

theorem map_toLower_lower {l : List Char} (h : ∀ c ∈ l, c ∈ azChars) :
    l.map Char.toLower = l := by
  induction l with
  | nil => rfl
  | cons c cs ih =>
    have hc := az_toLower_self c (h c (List.mem_cons_self _ _))
    have hcs := ih (fun d hd => h d (List.mem_cons_of_mem _ hd))
    simp [hc, hcs]

theorem capitalizeL_lower {c : Char} {cs : List Char}
    (h : ∀ d ∈ c :: cs, d ∈ azChars) :
    capitalizeL (c :: cs) = c.toUpper :: cs := by
  simp [capitalizeL, map_toLower_lower (fun d hd => h d (List.mem_cons_of_mem _ hd))]

/-- The per-character expansion applied by `to_snake_case` to every position
except the first. -/
def insUp (l : List Char) : List Char :=
  l.flatMap (fun d => if d.isUpper then ['_', d] else [d])

theorem snakeInsert_cons (c : Char) (cs : List Char) :
    snakeInsert (c :: cs) = c :: insUp cs := rfl

theorem insUp_append (a b : List Char) : insUp (a ++ b) = insUp a ++ insUp b := by
  simp [insUp]

theorem insUp_lower {l : List Char} (h : ∀ c ∈ l, c ∈ azChars) :
    insUp l = l := by
  induction l with
  | nil => rfl
  | cons c cs ih =>
    have hc := az_not_upper c (h c (List.mem_cons_self _ _))
    have hcs := ih (fun d hd => h d (List.mem_cons_of_mem _ hd))
    simp [insUp] at hcs ⊢
    simp [hc, hcs]

theorem joinUnderscore_cons (w : List Char) (ws : List (List Char)) :
    joinUnderscore (w :: ws) = w ++ ws.flatMap (fun u => '_' :: u) := by
  induction ws generalizing w with
  | nil => simp [joinUnderscore]
  | cons w2 ws2 ih =>
    have : joinUnderscore (w :: w2 :: ws2) = w ++ '_' :: joinUnderscore (w2 :: ws2) := rfl
    rw [this, ih w2]
    simp

theorem insUp_flatten_caps {rest : List (List Char)}
    (h : ∀ u ∈ rest, LowerWord u) :
    insUp ((rest.map capitalizeL).flatten) =
      rest.flatMap (fun u => '_' :: capitalizeL u) := by
  induction rest with
  | nil => rfl
  | cons u us ih =>
    have hu : LowerWord u := h u (List.mem_cons_self _ _)
    have hus := ih (fun v hv => h v (List.mem_cons_of_mem _ hv))
    obtain ⟨hne, hall⟩ := hu
    cases u with
    | nil => exact absurd rfl hne
    | cons d ds =>
      have hmem := allLowerAZ_mem hall
      have hcap : capitalizeL (d :: ds) = d.toUpper :: ds := capitalizeL_lower hmem
      have hdup : (d.toUpper).isUpper = true :=
        az_toUpper_isUpper d (hmem d (List.mem_cons_self _ _))
      have hds : insUp ds = ds :=
        insUp_lower (fun c hc => hmem c (List.mem_cons_of_mem _ hc))
      calc insUp (((d :: ds) :: us).map capitalizeL).flatten
          = insUp (capitalizeL (d :: ds)) ++ insUp ((us.map capitalizeL).flatten) := by
            simp [insUp_append]
        _ = ('_' :: d.toUpper :: ds) ++ us.flatMap (fun u => '_' :: capitalizeL u) := by
            rw [hcap, hus]
            have : insUp (d.toUpper :: ds) = '_' :: d.toUpper :: insUp ds := by
              simp [insUp, hdup]
            rw [this, hds]
        _ = ((d :: ds) :: us).flatMap (fun u => '_' :: capitalizeL u) := by
            simp [hcap]

theorem map_toLower_flatMap_caps {rest : List (List Char)}
    (h : ∀ u ∈ rest, LowerWord u) :
    List.map Char.toLower (rest.flatMap (fun u => '_' :: capitalizeL u)) =
      rest.flatMap (fun u => '_' :: u) := by
  induction rest with
  | nil => rfl
  | cons u us ih =>
    obtain ⟨hune, huall⟩ := h u (List.mem_cons_self _ _)
    cases u with
    | nil => exact absurd rfl hune
    | cons d ds =>
      have hmemu := allLowerAZ_mem huall
      have hcapu : capitalizeL (d :: ds) = d.toUpper :: ds := capitalizeL_lower hmemu
      have hd := az_toUpper_toLower d (hmemu d (List.mem_cons_self _ _))
      have hds := map_toLower_lower (fun e he => hmemu e (List.mem_cons_of_mem _ he))
      have hus := ih (fun v hv => h v (List.mem_cons_of_mem _ hv))
      simp only [List.flatMap_cons, List.map_append, hcapu]
      simp [hd, hds, hus]

/-- Claim C9: for every identifier composed of underscore-separated non-empty
lowercase words, `to_snake_case` undoes `to_pascal_case`: converting to the
capitalized-word form and back yields the original identifier. -/
theorem pascal_snake_roundtrip (ws : List (List Char)) (hne : ws ≠ [])
    (h : ∀ w ∈ ws, LowerWord w) :
    to_snake_case (to_pascal_case ⟨joinUnderscore ws⟩) = ⟨joinUnderscore ws⟩ := by
  cases ws with
  | nil => exact absurd rfl hne
  | cons w rest =>
  obtain ⟨hwne, hwall⟩ := h w (List.mem_cons_self _ _)
  cases w with
  | nil => exact absurd rfl hwne
  | cons c cs =>
  have hmemw := allLowerAZ_mem hwall
  have hrest : ∀ u ∈ rest, LowerWord u := fun u hu => h u (List.mem_cons_of_mem _ hu)
  -- the shortcut branch of `to_pascal_case` is not taken
  have hshort : pascalShortcut (joinUnderscore ((c :: cs) :: rest)) = false := by
    rw [joinUnderscore_cons]
    have hc := az_not_upper c (hmemw c (List.mem_cons_self _ _))
    simp [pascalShortcut, hc]
  -- splitting the joined identifier recovers the word list
  have hsplit : splitOnCh '_' (joinUnderscore ((c :: cs) :: rest)) = (c :: cs) :: rest :=
    splitOnCh_joinUnderscore _ (by simp)
      (fun u hu => lowerWord_no_underscore (h u hu))
  have hcapw : capitalizeL (c :: cs) = c.toUpper :: cs := capitalizeL_lower hmemw
  -- compute the pascal form
  have hpascal : toPascalCaseL (joinUnderscore ((c :: cs) :: rest)) =
      (c.toUpper :: cs) ++ ((rest.map capitalizeL).flatten) := by
    rw [toPascalCaseL, if_neg (by simp [hshort]), hsplit]
    simp [hcapw]
  -- compute the snake form of the pascal form
  have hsnake : toSnakeCaseL ((c.toUpper :: cs) ++ ((rest.map capitalizeL).flatten)) =
      joinUnderscore ((c :: cs) :: rest) := by
    have hstep : snakeInsert ((c.toUpper :: cs) ++ ((rest.map capitalizeL).flatten)) =
        c.toUpper :: (cs ++ rest.flatMap (fun u => '_' :: capitalizeL u)) := by
      rw [List.cons_append, snakeInsert_cons, insUp_append,
        insUp_lower (fun d hd => hmemw d (List.mem_cons_of_mem _ hd)),
        insUp_flatten_caps hrest]
    rw [toSnakeCaseL, hstep]
    have hlowtail := map_toLower_flatMap_caps hrest
    have hc := az_toUpper_toLower c (hmemw c (List.mem_cons_self _ _))
    have hcs := map_toLower_lower (fun d hd => hmemw d (List.mem_cons_of_mem _ hd))
    simp only [List.map_cons, List.map_append, hc, hcs, hlowtail]
    rw [joinUnderscore_cons]
    simp
  rw [to_pascal_case, to_snake_case]
  simp only [hpascal]
  exact congrArg String.mk (by simpa [toSnakeCaseL] using hsnake)

/-- Witness for C9 at a concrete identifier. -/
theorem pascal_snake_roundtrip_witness :
    to_snake_case (to_pascal_case "user_login_id") = "user_login_id" := by
  have h := pascal_snake_roundtrip
    [['u','s','e','r'], ['l','o','g','i','n'], ['i','d']]
    (by simp) (by decide)
  simpa [joinUnderscore] using h

/-! ## Schema model: fields and packets (src/generate.py lines 239-350) -/

/-- The validation block of a field definition (src/generate.py lines 255,
264-297): a dictionary with a fixed set of recognised keys, each optional. -/
structure Validation where
  required : Option Bool := none
  min : Option Int := none
  max : Option Int := none
  pattern : Option String := none
  allow_empty : Option Bool := none
  allow_nan : Option Bool := none
  allow_infinity : Option Bool := none
  max_depth : Option Nat := none
deriving DecidableEq, Repr

/-- The object form of a raw field definition (spec section 6:
`\x7btype, description?, optional?, deprecated?, validation?\x7d`). -/
structure FieldObj where
  type : Option String := none
  description : Option String := none
  optional : Option Bool := none
  deprecated : Option Bool := none
  validation : Option Validation := none
deriving DecidableEq, Repr

/-- A raw field definition: either the bare type-tag shorthand or the object
form (src/generate.py lines 242-255). -/
inductive FieldDef where
  | str (t : String)
  | obj (o : FieldObj)
deriving DecidableEq, Repr

/-- Embeds `PacketField` (src/generate.py lines 239-255): the normalized field
descriptor constructed by `PacketField.__init__`. -/
structure PacketField where
  name : String
  type : String
  description : Option String
  optional : Bool
  deprecated : Bool
  validation : Validation
deriving DecidableEq, Repr

/-- Embeds `PacketField.__init__` (src/generate.py lines 242-255): a bare string sets
the type and defaults everything else; an object form reads each key with the
same defaults (`type` defaulting to `"string"`). -/
def mkPacketField (name : String) : FieldDef → PacketField
  | .str t =>
    { name := name, type := t, description := none, optional := false,
      deprecated := false, validation := {} }
  | .obj o =>
    { name := name, type := o.type.getD "string", description := o.description,
      optional := o.optional.getD false, deprecated := o.deprecated.getD false,
      validation := o.validation.getD {} }

/-- A raw packet definition (the value of one entry of the `packets` map). -/
structure RawPacketDef where
  description : Option String := none
  version : Option Nat := none
  deprecated : Option Bool := none
  fields : List (String × FieldDef) := []
deriving Repr

/-- The normalized packet descriptor (src/generate.py lines 313-326). -/
structure PacketDefinition where
  path : String
  name : String
  description : String
  version : Nat
  deprecated : Bool
  fields : List PacketField
deriving DecidableEq, Repr

/-- Python `path.split("/")[-1]`: the final slash-separated segment. -/
def lastSegment (path : String) : List Char := (splitOnCh '/' path.data).getLastD []

/-- Embeds `PacketDefinition.__init__` (src/generate.py lines 316-326): the generated
type name is the pascal-case form of the final `/`-separated path segment; the
fields are normalized in definition order. -/
def mkPacketDefinition (path : String) (d : RawPacketDef) : PacketDefinition :=
  { path := path, name := to_pascal_case ⟨lastSegment path⟩,
    description := d.description.getD "", version := d.version.getD 1,
    deprecated := d.deprecated.getD false,
    fields := d.fields.map (fun nf => mkPacketField nf.1 nf.2) }

/-- Per-packet artifact file name used by the Dart emitter
(src/generate.py line 742): `to_snake_case(packet.name) + ".dart"`. -/
def dartPacketFilename (p : PacketDefinition) : String := to_snake_case p.name ++ ".dart"

/-- Claim C2: a field given in shorthand form (a bare type-tag string) yields a
descriptor identical, in every attribute, to the fully specified form with
optional=false, deprecated=false and an empty validation block; consequently
any emitter function of the descriptor produces byte-for-byte identical
output for the two forms. -/
theorem shorthand_field_equiv (name t : String) :
    mkPacketField name (FieldDef.str t) =
      mkPacketField name (FieldDef.obj
        { type := some t, description := none, optional := some false,
          deprecated := some false, validation := some {} }) ∧
    ∀ (emit : PacketField → String),
      emit (mkPacketField name (FieldDef.str t)) =
        emit (mkPacketField name (FieldDef.obj
          { type := some t, description := none, optional := some false,
            deprecated := some false, validation := some {} })) :=
  ⟨rfl, fun _ => rfl⟩

/-- Claim C10: the generated type name is the pascal-case form of only the
final `/`-separated segment of the dotted path, so two packets whose paths
share a final segment receive identical generated names and identical
generated artifact file names. -/
theorem packet_name_from_last_segment (p1 p2 : String) (d1 d2 : RawPacketDef)
    (h : lastSegment p1 = lastSegment p2) :
    (mkPacketDefinition p1 d1).name = to_pascal_case ⟨lastSegment p1⟩ ∧
    (mkPacketDefinition p1 d1).name = (mkPacketDefinition p2 d2).name ∧
    dartPacketFilename (mkPacketDefinition p1 d1) =
      dartPacketFilename (mkPacketDefinition p2 d2) := by
  refine ⟨rfl, ?_, ?_⟩
  · simp [mkPacketDefinition, h]
  · simp [dartPacketFilename, mkPacketDefinition, h]

/-- Witness for C10: `user/login` and `admin/login` have different paths but
the same generated type name. -/
theorem packet_name_from_last_segment_witness :
    ("user/login" : String) ≠ "admin/login" ∧
    (mkPacketDefinition "user/login" {}).name = (mkPacketDefinition "admin/login" {}).name :=
  ⟨by decide,
   (packet_name_from_last_segment "user/login" "admin/login" {} {} (by decide)).2.1⟩

/-! ## Type Tag Table (src/generate.py lines 59-214) -/

/-- Embeds `TYPE_MAPPINGS` (src/generate.py lines 59-214): the per-target native type
name for every abstract field type tag. -/
def TYPE_MAPPINGS : List (String × List (String × String)) := [
  ("int", [("dart", "int"), ("python", "int"), ("java", "long"),
    ("typescript", "number"), ("rust", "i64"), ("go", "int64"),
    ("cpp", "int64_t"), ("csharp", "long"), ("php", "int")]),
  ("float", [("dart", "double"), ("python", "float"), ("java", "double"),
    ("typescript", "number"), ("rust", "f64"), ("go", "float64"),
    ("cpp", "double"), ("csharp", "double"), ("php", "float")]),
  ("double", [("dart", "double"), ("python", "float"), ("java", "double"),
    ("typescript", "number"), ("rust", "f64"), ("go", "float64"),
    ("cpp", "double"), ("csharp", "double"), ("php", "float")]),
  ("bool", [("dart", "bool"), ("python", "bool"), ("java", "boolean"),
    ("typescript", "boolean"), ("rust", "bool"), ("go", "bool"),
    ("cpp", "bool"), ("csharp", "bool"), ("php", "bool")]),
  ("string", [("dart", "String"), ("python", "str"), ("java", "String"),
    ("typescript", "string"), ("rust", "String"), ("go", "string"),
    ("cpp", "std::string"), ("csharp", "string"), ("php", "string")]),
  ("datetime", [("dart", "DateTime"), ("python", "datetime"), ("java", "ZonedDateTime"),
    ("typescript", "Date"), ("rust", "DateTime<Utc>"), ("go", "time.Time"),
    ("cpp", "std::string"), ("csharp", "DateTimeOffset"), ("php", "DateTimeImmutable")]),
  ("time", [("dart", "TimeOfDay"), ("python", "time"), ("java", "LocalTime"),
    ("typescript", "string"), ("rust", "NaiveTime"), ("go", "string"),
    ("cpp", "std::string"), ("csharp", "TimeSpan"), ("php", "string")]),
  ("bytes", [("dart", "Uint8List"), ("python", "bytes"), ("java", "byte[]"),
    ("typescript", "Uint8Array"), ("rust", "Vec<u8>"), ("go", "[]byte"),
    ("cpp", "std::vector<uint8_t>"), ("csharp", "byte[]"), ("php", "string")]),
  ("list", [("dart", "List<dynamic>"), ("python", "List[Any]"), ("java", "List<Object>"),
    ("typescript", "any[]"), ("rust", "Vec<serde_json::Value>"), ("go", "[]interface\x7b\x7d"),
    ("cpp", "std::string"), ("csharp", "List<object>"), ("php", "array")]),
  ("list_int", [("dart", "List<int>"), ("python", "List[int]"), ("java", "List<Long>"),
    ("typescript", "number[]"), ("rust", "Vec<i64>"), ("go", "[]int64"),
    ("cpp", "std::vector<int64_t>"), ("csharp", "List<long>"), ("php", "array")]),
  ("list_string", [("dart", "List<String>"), ("python", "List[str]"), ("java", "List<String>"),
    ("typescript", "string[]"), ("rust", "Vec<String>"), ("go", "[]string"),
    ("cpp", "std::vector<std::string>"), ("csharp", "List<string>"), ("php", "array")]),
  ("map", [("dart", "Map<String, dynamic>"), ("python", "Dict[str, Any]"),
    ("java", "Map<String, Object>"), ("typescript", "Record<string, any>"),
    ("rust", "HashMap<String, serde_json::Value>"), ("go", "map[string]interface\x7b\x7d"),
    ("cpp", "std::string"), ("csharp", "Dictionary<string, object>"), ("php", "array")]),
  ("embedded_map", [("dart", "Map<dynamic, dynamic>"), ("python", "Dict[Any, Any]"),
    ("java", "Map<Object, Object>"), ("typescript", "Map<any, any>"),
    ("rust", "HashMap<String, serde_json::Value>"), ("go", "map[string]interface\x7b\x7d"),
    ("cpp", "std::string"), ("csharp", "Dictionary<string, object>"), ("php", "array")]),
  ("map_string_dynamic", [("dart", "Map<String, dynamic>"), ("python", "Dict[str, Any]"),
    ("java", "Map<String, Object>"), ("typescript", "Record<string, any>"),
    ("rust", "HashMap<String, serde_json::Value>"), ("go", "map[string]interface\x7b\x7d"),
    ("cpp", "std::string"), ("csharp", "Dictionary<string, object>"), ("php", "array")])]

/-- Embeds `TYPE_MAPPINGS.get(tag, \x7b\x7d).get(lang, fallback)`: total lookup with a
per-target fallback for unknown tags. -/
def typeMapping (tag lang fallback : String) : String :=
  (((TYPE_MAPPINGS.lookup tag).getD []).lookup lang).getD fallback

/-- Python `s.endswith(suffix)`. -/
def pyEndsWith (s suffix : String) : Bool := suffix.data.isSuffixOf s.data

/-- Python `s.startswith(pre)`. -/
def pyStartsWith (s pre : String) : Bool := pre.data.isPrefixOf s.data

/-- Embeds `PacketField.dart_type` (src/generate.py lines 299-302). -/
def dart_type (f : PacketField) : String :=
  let base := typeMapping f.type "dart" "dynamic"
  if f.optional then base ++ "?" else base

/-- The Dart storage type actually emitted for a field
(src/generate.py lines 453-461): `generate_packet` appends a `?` to
`dart_type` whenever it does not already end in one, making every field
nullable. -/
def dartStorageType (f : PacketField) : String :=
  let t := dart_type f
  if pyEndsWith t "?" then t else t ++ "?"

/-- Embeds `PythonGenerator.python_type` (src/generate.py lines 762-769): every field
annotation is wrapped in `Optional[...]`. -/
def python_type (f : PacketField) : String :=
  "Optional[" ++ typeMapping f.type "python" "Any" ++ "]"

/-- Embeds `TypeScriptGenerator.ts_type` (src/generate.py lines 1745-1750): only
optional fields receive `| null`. -/
def ts_type (f : PacketField) : String :=
  let base := typeMapping f.type "typescript" "any"
  if f.optional then base ++ " | null" else base

/-- Embeds `RustGenerator.rust_type` (src/generate.py lines 1969-1974): only optional
fields are wrapped in `Option<...>`. -/
def rust_type (f : PacketField) : String :=
  let base := typeMapping f.type "rust" "serde_json::Value"
  if f.optional then "Option<" ++ base ++ ">" else base

/-- Embeds `PhpGenerator.php_nullable_type` (src/generate.py lines 2857-2863): the
property type is always nullable (or `mixed`, which already includes null). -/
def php_nullable_type (f : PacketField) : String :=
  let base := typeMapping f.type "php" "mixed"
  if base = "mixed" then "mixed" else "?" ++ base

/-- Nullability of the TypeScript storage type, read off the emitted type. -/
def tsNullable (f : PacketField) : Bool := pyEndsWith (ts_type f) " | null"

/-- Nullability of the Rust storage type, read off the emitted type. -/
def rustNullable (f : PacketField) : Bool := pyStartsWith (rust_type f) "Option<"

/-! ### Generic facts about the table lookup -/

theorem isPrefixOf_self_append (l r : List Char) : l.isPrefixOf (l ++ r) = true := by
  induction l with
  | nil => simp [List.isPrefixOf]
  | cons c cs ih => simp [List.isPrefixOf, ih]

theorem isSuffixOf_append_self (l r : List Char) : r.isSuffixOf (l ++ r) = true := by
  simp [List.isSuffixOf, List.reverse_append, isPrefixOf_self_append]

theorem pyEndsWith_append (s suffix : String) : pyEndsWith (s ++ suffix) suffix = true := by
  simp [pyEndsWith, String.data_append, isSuffixOf_append_self]

theorem pyStartsWith_append (pre s : String) : pyStartsWith (pre ++ s) pre = true := by
  simp [pyStartsWith, String.data_append, isPrefixOf_self_append]

theorem lookup_getD_cases {α β : Type} [BEq α] (l : List (α × β)) (k : α) (fb : β) :
    (l.lookup k).getD fb = fb ∨ (l.lookup k).getD fb ∈ l.map Prod.snd := by
  induction l with
  | nil => left; rfl
  | cons e t ih =>
    by_cases h : k == e.1
    · right
      simp [List.lookup, h]
    · rcases ih with h2 | h2
      · left
        simpa [List.lookup, h] using h2
      · right
        simp only [List.lookup, h]
        exact List.mem_cons_of_mem _ h2

/-- All native type names appearing anywhere in the type tag table. -/
def allMappingValues : List String :=
  TYPE_MAPPINGS.flatMap (fun e => e.2.map Prod.snd)

theorem typeMapping_cases (tag lang fb : String) :
    typeMapping tag lang fb = fb ∨ typeMapping tag lang fb ∈ allMappingValues := by
  unfold typeMapping
  rcases lookup_getD_cases TYPE_MAPPINGS tag [] with h | h
  · rw [h]
    left
    rfl
  · rcases lookup_getD_cases ((TYPE_MAPPINGS.lookup tag).getD []) lang fb with h2 | h2
    · left; exact h2
    · right
      rcases List.mem_map.mp h with ⟨e, he, hev⟩
      exact List.mem_flatMap.mpr ⟨e, he, hev ▸ h2⟩

set_option maxRecDepth 40000 in
theorem allMappingValues_not_tsNull :
    ∀ v ∈ allMappingValues, pyEndsWith v " | null" = false := by decide

set_option maxRecDepth 40000 in
theorem allMappingValues_not_rustOption :
    ∀ v ∈ allMappingValues, pyStartsWith v "Option<" = false := by decide

/-- Counterexample to C6 as stated: for the (shorthand, hence required)
`int` field `user_id`, the TypeScript and Rust emitters generate plain
non-nullable storage types. -/
theorem required_field_not_nullable_ts_rust :
    tsNullable (mkPacketField "user_id" (FieldDef.str "int")) = false ∧
    rustNullable (mkPacketField "user_id" (FieldDef.str "int")) = false ∧
    ts_type (mkPacketField "user_id" (FieldDef.str "int")) = "number" ∧
    rust_type (mkPacketField "user_id" (FieldDef.str "int")) = "i64" := by decide

/-- Claim C6, amended: the Dart, Python and PHP emitters generate storage that
is nullable for every field regardless of the schema's required marking,
whereas the TypeScript and Rust emitters generate nullable storage exactly for
the fields marked optional. -/
theorem field_storage_nullability (f : PacketField) :
    pyEndsWith (dartStorageType f) "?" = true ∧
    pyStartsWith (python_type f) "Optional[" = true ∧
    (php_nullable_type f = "mixed" ∨ pyStartsWith (php_nullable_type f) "?" = true) ∧
    tsNullable f = f.optional ∧
    rustNullable f = f.optional := by
  refine ⟨?_, ?_, ?_, ?_, ?_⟩
  · unfold dartStorageType
    by_cases h : pyEndsWith (dart_type f) "?" = true
    · simp [h]
    · simp only [h, Bool.false_eq_true, if_false]
      exact pyEndsWith_append (dart_type f) "?"
  · unfold python_type
    have := pyStartsWith_append "Optional[" (typeMapping f.type "python" "Any" ++ "]")
    simpa [String.append_assoc] using this
  · unfold php_nullable_type
    by_cases h : typeMapping f.type "php" "mixed" = "mixed"
    · left; simp [h]
    · right
      simp only [h, if_false]
      exact pyStartsWith_append "?" (typeMapping f.type "php" "mixed")
  · unfold tsNullable ts_type
    by_cases h : f.optional
    · simp [h, pyEndsWith_append]
    · simp only [h, Bool.false_eq_true, if_false, eq_iff_iff]
      rcases typeMapping_cases f.type "typescript" "any" with h2 | h2
      · simp [h2, h]
        decide
      · simp [allMappingValues_not_tsNull _ h2, h]
  · unfold rustNullable rust_type
    by_cases h : f.optional
    · simp [h]
      have := pyStartsWith_append "Option<" (typeMapping f.type "rust" "serde_json::Value" ++ ">")
      simpa [String.append_assoc] using this
    · simp only [h, Bool.false_eq_true, if_false]
      rcases typeMapping_cases f.type "rust" "serde_json::Value" with h2 | h2
      · simp [h2, h]
        decide
      · simp [allMappingValues_not_rustOption _ h2, h]

/-! ## The `main` pipeline (src/generate.py lines 3080-3224)

The driver is modelled as an `Except`-valued pipeline: the fatal checks of
`main` (both serialization formats disabled; a field name colliding with the
configured type-identifier field) happen, in source order, before the parsed
schema model is handed to the emitters.  Every emitter's output is a pure
function of the `.ok` payload, so an `.error` result means that no artifact
text is produced for any packet or target. -/

/-- The relevant command-line flags (src/generate.py lines 3107-3110). -/
structure Args where
  no_msgpack : Bool := false
  no_json : Bool := false
deriving DecidableEq, Repr

/-- Embeds `config.global.serialization` (src/generate.py lines 3138-3146). -/
structure SerializationCfg where
  msgpack : Option Bool := none
  json : Option Bool := none
deriving DecidableEq, Repr

/-- Embeds `config.global` (src/generate.py lines 3138-3142). -/
structure GlobalCfg where
  type_field : Option String := none
  serialization : SerializationCfg := {}
deriving DecidableEq, Repr

/-- The parsed schema document handed to `main` by `load_config`. -/
structure ConfigDoc where
  globalCfg : GlobalCfg := {}
  packets : List (String × RawPacketDef) := []
deriving Repr

/-- The fatal, pre-generation errors of `main`. -/
inductive GenError where
  | bothFormatsCli
  | bothFormatsMerged
  | reservedField (fieldName packetName : String)
deriving DecidableEq, Repr

/-- Embeds `type_field = global_config.get("type_field", "packetType")`
(src/generate.py line 3142). -/
def effectiveTypeField (cfg : ConfigDoc) : String :=
  cfg.globalCfg.type_field.getD "packetType"

/-- Embeds `no_msgpack = args.no_msgpack or config_no_msgpack`
(src/generate.py lines 3145-3149). -/
def effectiveNoMsgpack (args : Args) (cfg : ConfigDoc) : Bool :=
  args.no_msgpack || !(cfg.globalCfg.serialization.msgpack.getD true)

/-- Embeds `no_json = args.no_json or config_no_json` (src/generate.py lines 3146-3150). -/
def effectiveNoJson (args : Args) (cfg : ConfigDoc) : Bool :=
  args.no_json || !(cfg.globalCfg.serialization.json.getD true)

/-- The packet-parsing loop of `main` (src/generate.py lines 3160-3170): each
packet is normalized in order and each of its fields is checked, in order,
against the reserved type-identifier field name; the first collision aborts
with an error naming the reserved field name and the offending packet. -/
def parsePackets (typeField : String) :
    List (String × RawPacketDef) → Except GenError (List PacketDefinition)
  | [] => .ok []
  | e :: rest =>
    let p := mkPacketDefinition e.1 e.2
    match p.fields.find? (fun f => f.name == typeField) with
    | some _ => .error (.reservedField typeField p.name)
    | none =>
      match parsePackets typeField rest with
      | .ok ps => .ok (p :: ps)
      | .error err => .error err

/-- The pre-generation phase of `main` (src/generate.py lines 3121-3176): the
CLI mutual-exclusion check, then the merged-formats check, then packet
parsing with the reserved-name check.  The `.ok` payload is the schema model
handed to every emitter. -/
def mainModel (args : Args) (cfg : ConfigDoc) : Except GenError (List PacketDefinition) :=
  if args.no_msgpack && args.no_json then .error .bothFormatsCli
  else if effectiveNoMsgpack args cfg && effectiveNoJson args cfg then .error .bothFormatsMerged
  else parsePackets (effectiveTypeField cfg) cfg.packets

theorem parsePackets_reserved (tf : String) (l : List (String × RawPacketDef))
    (hbad : ∃ e ∈ l, ∃ f ∈ (mkPacketDefinition e.1 e.2).fields, f.name = tf) :
    ∃ p ∈ l.map (fun e => mkPacketDefinition e.1 e.2),
      (∃ f ∈ p.fields, f.name = tf) ∧
      parsePackets tf l = .error (.reservedField tf p.name) := by
  induction l with
  | nil => simp at hbad
  | cons e rest ih =>
    cases hfind : (mkPacketDefinition e.1 e.2).fields.find? (fun f => f.name == tf) with
    | some f =>
      refine ⟨mkPacketDefinition e.1 e.2, List.mem_cons_self _ _, ?_, ?_⟩
      · exact ⟨f, List.mem_of_find?_eq_some hfind,
          by simpa using List.find?_some hfind⟩
      · simp [parsePackets, hfind]
    | none =>
      have hnone : ∀ f ∈ (mkPacketDefinition e.1 e.2).fields, f.name ≠ tf := by
        intro f hf
        have := List.find?_eq_none.mp hfind f hf
        simpa using this
      have hrest : ∃ e2 ∈ rest, ∃ f ∈ (mkPacketDefinition e2.1 e2.2).fields, f.name = tf := by
        rcases hbad with ⟨e2, he2, f, hf, hname⟩
        rcases List.mem_cons.mp he2 with rfl | hmem
        · exact absurd hname (hnone f hf)
        · exact ⟨e2, hmem, f, hf, hname⟩
      rcases ih hrest with ⟨p, hp, hf, heq⟩
      refine ⟨p, List.mem_cons_of_mem _ hp, hf, ?_⟩
      simp [parsePackets, hfind, heq]

/-- Claim C3: whenever some packet of the schema contains a field whose name
equals the configured type-identifier field name (and the run is not already
rejected by the serialization-format check), the pipeline aborts with an
error naming the reserved field name and the offending packet, and the schema
model is never handed to any emitter. -/
theorem reserved_name_aborts (args : Args) (cfg : ConfigDoc)
    (hfmt : ¬(effectiveNoMsgpack args cfg = true ∧ effectiveNoJson args cfg = true))
    (hbad : ∃ e ∈ cfg.packets, ∃ f ∈ (mkPacketDefinition e.1 e.2).fields,
      f.name = effectiveTypeField cfg) :
    ∃ p ∈ cfg.packets.map (fun e => mkPacketDefinition e.1 e.2),
      (∃ f ∈ p.fields, f.name = effectiveTypeField cfg) ∧
      mainModel args cfg = .error (.reservedField (effectiveTypeField cfg) p.name) := by
  have hcli : (args.no_msgpack && args.no_json) = false := by
    by_contra hc
    simp only [Bool.not_eq_false, Bool.and_eq_true] at hc
    exact hfmt ⟨by simp [effectiveNoMsgpack, hc.1], by simp [effectiveNoJson, hc.2]⟩
  have hmerged : (effectiveNoMsgpack args cfg && effectiveNoJson args cfg) = false := by
    by_contra hc
    simp only [Bool.not_eq_false, Bool.and_eq_true] at hc
    exact hfmt hc
  rcases parsePackets_reserved (effectiveTypeField cfg) cfg.packets hbad with ⟨p, hp, hf, heq⟩
  exact ⟨p, hp, hf, by simp [mainModel, hcli, hmerged, heq]⟩

/-- Concrete schema used in the witnesses: one packet `user/login` whose
single field reuses the default reserved name `packetType`. -/
def reservedCfg : ConfigDoc :=
  { packets := [("user/login", { fields := [("packetType", FieldDef.str "string")] })] }

/-- Witness for C3 at a concrete schema. -/
theorem reserved_name_aborts_witness :
    mainModel {} reservedCfg = .error (.reservedField "packetType" "Login") := by
  obtain ⟨p, hp, -, herr⟩ := reserved_name_aborts {} reservedCfg (by decide) (by decide)
  have hpe : p = mkPacketDefinition "user/login"
      { fields := [("packetType", FieldDef.str "string")] } := by
    simpa [reservedCfg] using hp
  rw [herr, hpe]
  rfl

/-- Claim C4: whenever the structured-text and binary serialization toggles
are both disabled after merging the command-line flags with the schema's
global options, the pipeline is rejected by one of the two format checks and
the schema model is never handed to any emitter. -/
theorem both_formats_disabled_rejected (args : Args) (cfg : ConfigDoc)
    (h1 : effectiveNoMsgpack args cfg = true) (h2 : effectiveNoJson args cfg = true) :
    mainModel args cfg = .error .bothFormatsCli ∨
    mainModel args cfg = .error .bothFormatsMerged := by
  by_cases hc : (args.no_msgpack && args.no_json) = true
  · left
    simp [mainModel, hc]
  · right
    have hc2 : (args.no_msgpack && args.no_json) = false := by
      simpa using hc
    simp [mainModel, hc2, h1, h2]

/-- Witness for C4: the binary format disabled on the command line and the
structured-text format disabled in the schema's global options. -/
theorem both_formats_disabled_rejected_witness :
    mainModel { no_msgpack := true }
        { globalCfg := { serialization := { json := some false } } } =
      .error .bothFormatsCli ∨
    mainModel { no_msgpack := true }
        { globalCfg := { serialization := { json := some false } } } =
      .error .bothFormatsMerged :=
  both_formats_disabled_rejected
    { no_msgpack := true }
    { globalCfg := { serialization := { json := some false } } }
    (by decide) (by decide)

/-! ## Dispatch: registries and unknown-type failures (claim C5) -/

/-- Substring test: does `pat` occur contiguously in `s`? -/
def substrB (pat : List Char) : List Char → Bool
  | [] => pat.isEmpty
  | c :: rest => pat.isPrefixOf (c :: rest) || substrB pat rest

/-- Embeds `PythonGenerator.generate_init` (src/generate.py lines 923-953): the lines
of the Python base artifact `__init__.py`, containing the dispatch function
`deserialize_packet` with one registration test per packet and a final
`Unknown packet type` failure. -/
def pythonInitLines (ind typeField : String) (packets : List PacketDefinition) :
    List String :=
  ["\"\"\"", "Auto-generated packet module.", "\"\"\"", ""]
  ++ packets.map (fun p => "from ." ++ to_snake_case p.name ++ " import " ++ p.name)
  ++ ["", "",
      "def deserialize_packet(data):",
      ind ++ "\"\"\"Deserialize a packet based on its " ++ typeField ++ " field.\"\"\"",
      ind ++ "packet_type = data.get(\"" ++ typeField ++ "\") if isinstance(data, dict) else None",
      ""]
  ++ packets.flatMap (fun p =>
      [ind ++ "if packet_type == \"" ++ p.path ++ "\":",
       ind ++ ind ++ "return " ++ p.name ++ "._from_dict(data)"])
  ++ ["", ind ++ "raise ValueError(f\"Unknown packet type: \x7bpacket_type\x7d\")"]

/-- The joined text of the Python base artifact (`"\n".join(lines)`). -/
def pythonGenerateInit (ind typeField : String) (packets : List PacketDefinition) : String :=
  String.intercalate "\n" (pythonInitLines ind typeField packets)

/-- Semantics of the emitted Python `deserialize_packet` (src/generate.py
lines 941-951): an if-chain over the registered packets in definition order,
falling through to `raise ValueError(f"Unknown packet type: ...")`. -/
def pythonDeserializeModel (t : String) : List PacketDefinition → Except String PacketDefinition
  | [] => .error ("Unknown packet type: " ++ t)
  | p :: rest => if t = p.path then .ok p else pythonDeserializeModel t rest

/-- Semantics of the emitted Dart `DataPacket.deserialize` switch
(src/generate.py lines 694-718): one case per registered packet path, with a
default throwing `UnimplementedError` naming the unknown identifier. -/
def dartDeserializeModel (t : String) : List PacketDefinition → Except String PacketDefinition
  | [] => .error ("Unknown packet type: " ++ t)
  | p :: rest => if t = p.path then .ok p else dartDeserializeModel t rest

/-- Semantics of the emitted TypeScript `deserializePacket`
(src/generate.py lines 1911-1926): a lookup in the `packetTypes` object
literal (later duplicate keys override earlier ones, hence the reversed
search) throwing `Unknown packet type` on a miss. -/
def tsDeserializeModel (t : String) (packets : List PacketDefinition) :
    Except String PacketDefinition :=
  match packets.reverse.find? (fun p => p.path == t) with
  | some p => .ok p
  | none => .error ("Unknown packet type: " ++ t)

/-- Embeds `RustGenerator.generate_mod` (src/generate.py lines 2060-2069): the lines
of the Rust base artifact `mod.rs`, which only declares and re-exports the
per-packet modules. -/
def rustModLines (packets : List PacketDefinition) : List String :=
  ["// Auto-generated - do not modify manually", ""]
  ++ packets.flatMap (fun p =>
      ["mod " ++ to_snake_case p.name ++ ";",
       "pub use " ++ to_snake_case p.name ++ "::" ++ p.name ++ ";"])

/-- The joined text of the Rust base artifact (`"\n".join(lines)`). -/
def rustGenerateMod (packets : List PacketDefinition) : String :=
  String.intercalate "\n" (rustModLines packets)

theorem pythonDeserializeModel_mem (t : String) (packets : List PacketDefinition)
    (h : t ∈ packets.map (fun q => q.path)) :
    ∃ q ∈ packets, pythonDeserializeModel t packets = .ok q ∧ q.path = t := by
  induction packets with
  | nil => simp at h
  | cons p rest ih =>
    by_cases hp : t = p.path
    · exact ⟨p, List.mem_cons_self _ _, by simp [pythonDeserializeModel, hp], hp.symm⟩
    · have hrest : t ∈ rest.map (fun q => q.path) := by
        rcases List.mem_map.mp h with ⟨q, hq, hqt⟩
        rcases List.mem_cons.mp hq with rfl | hq2
        · exact absurd hqt.symm hp
        · exact List.mem_map.mpr ⟨q, hq2, hqt⟩
      rcases ih hrest with ⟨q, hq, heq, hqt⟩
      exact ⟨q, List.mem_cons_of_mem _ hq, by simp [pythonDeserializeModel, hp, heq], hqt⟩

theorem pythonDeserializeModel_unknown (t : String) (packets : List PacketDefinition)
    (h : t ∉ packets.map (fun q => q.path)) :
    pythonDeserializeModel t packets = .error ("Unknown packet type: " ++ t) := by
  induction packets with
  | nil => rfl
  | cons p rest ih =>
    have hp : t ≠ p.path := fun he => h (List.mem_map.mpr ⟨p, List.mem_cons_self _ _, he.symm⟩)
    have hrest : t ∉ rest.map (fun q => q.path) := fun hm => by
      rcases List.mem_map.mp hm with ⟨q, hq, hqt⟩
      exact h (List.mem_map.mpr ⟨q, List.mem_cons_of_mem _ hq, hqt⟩)
    simp [pythonDeserializeModel, hp, ih hrest]

theorem dartDeserializeModel_mem (t : String) (packets : List PacketDefinition)
    (h : t ∈ packets.map (fun q => q.path)) :
    ∃ q ∈ packets, dartDeserializeModel t packets = .ok q ∧ q.path = t := by
  induction packets with
  | nil => simp at h
  | cons p rest ih =>
    by_cases hp : t = p.path
    · exact ⟨p, List.mem_cons_self _ _, by simp [dartDeserializeModel, hp], hp.symm⟩
    · have hrest : t ∈ rest.map (fun q => q.path) := by
        rcases List.mem_map.mp h with ⟨q, hq, hqt⟩
        rcases List.mem_cons.mp hq with rfl | hq2
        · exact absurd hqt.symm hp
        · exact List.mem_map.mpr ⟨q, hq2, hqt⟩
      rcases ih hrest with ⟨q, hq, heq, hqt⟩
      exact ⟨q, List.mem_cons_of_mem _ hq, by simp [dartDeserializeModel, hp, heq], hqt⟩

theorem dartDeserializeModel_unknown (t : String) (packets : List PacketDefinition)
    (h : t ∉ packets.map (fun q => q.path)) :
    dartDeserializeModel t packets = .error ("Unknown packet type: " ++ t) := by
  induction packets with
  | nil => rfl
  | cons p rest ih =>
    have hp : t ≠ p.path := fun he => h (List.mem_map.mpr ⟨p, List.mem_cons_self _ _, he.symm⟩)
    have hrest : t ∉ rest.map (fun q => q.path) := fun hm => by
      rcases List.mem_map.mp hm with ⟨q, hq, hqt⟩
      exact h (List.mem_map.mpr ⟨q, List.mem_cons_of_mem _ hq, hqt⟩)
    simp [dartDeserializeModel, hp, ih hrest]

theorem tsDeserializeModel_mem (t : String) (packets : List PacketDefinition)
    (h : t ∈ packets.map (fun q => q.path)) :
    ∃ q ∈ packets, tsDeserializeModel t packets = .ok q ∧ q.path = t := by
  cases hsome : packets.reverse.find? (fun p => p.path == t) with
  | none =>
    exfalso
    rcases List.mem_map.mp h with ⟨q, hq, hqt⟩
    have := List.find?_eq_none.mp hsome q (List.mem_reverse.mpr hq)
    simp [hqt] at this
  | some q =>
    have hqmem : q ∈ packets := List.mem_reverse.mp (List.mem_of_find?_eq_some hsome)
    have hqt : q.path = t := by simpa using List.find?_some hsome
    exact ⟨q, hqmem, by simp [tsDeserializeModel, hsome], hqt⟩

theorem tsDeserializeModel_unknown (t : String) (packets : List PacketDefinition)
    (h : t ∉ packets.map (fun q => q.path)) :
    tsDeserializeModel t packets = .error ("Unknown packet type: " ++ t) := by
  have hnone : packets.reverse.find? (fun p => p.path == t) = none := by
    rw [List.find?_eq_none]
    intro q hq
    have hqm : q ∈ packets := List.mem_reverse.mp hq
    simp only [beq_iff_eq]
    exact fun he => h (List.mem_map.mpr ⟨q, hqm, he⟩)
  simp [tsDeserializeModel, hnone]

/-- Claim C5, amended: the Dart, Python and TypeScript emitters register every
packet in their base artifact's dispatch operation under its dotted path (for
Python this registration is visible as a literal line of the emitted
`__init__.py`), and presenting an unregistered type identifier to any of the
three dispatch operations produces an `Unknown packet type` failure naming
the offending identifier. -/
theorem dispatch_registered_and_unknown (packets : List PacketDefinition)
    (p : PacketDefinition) (t : String) (ind typeField : String)
    (hp : p ∈ packets) (ht : t ∉ packets.map (fun q => q.path)) :
    ((ind ++ "if packet_type == \"" ++ p.path ++ "\":")
        ∈ pythonInitLines ind typeField packets) ∧
    (∃ q ∈ packets, pythonDeserializeModel p.path packets = .ok q ∧ q.path = p.path) ∧
    (∃ q ∈ packets, dartDeserializeModel p.path packets = .ok q ∧ q.path = p.path) ∧
    (∃ q ∈ packets, tsDeserializeModel p.path packets = .ok q ∧ q.path = p.path) ∧
    pythonDeserializeModel t packets = .error ("Unknown packet type: " ++ t) ∧
    dartDeserializeModel t packets = .error ("Unknown packet type: " ++ t) ∧
    tsDeserializeModel t packets = .error ("Unknown packet type: " ++ t) := by
  have hmem : p.path ∈ packets.map (fun q => q.path) := List.mem_map.mpr ⟨p, hp, rfl⟩
  refine ⟨?_, pythonDeserializeModel_mem _ _ hmem, dartDeserializeModel_mem _ _ hmem,
    tsDeserializeModel_mem _ _ hmem, pythonDeserializeModel_unknown _ _ ht,
    dartDeserializeModel_unknown _ _ ht, tsDeserializeModel_unknown _ _ ht⟩
  have hline : (ind ++ "if packet_type == \"" ++ p.path ++ "\":")
      ∈ packets.flatMap (fun q =>
        [ind ++ "if packet_type == \"" ++ q.path ++ "\":",
         ind ++ ind ++ "return " ++ q.name ++ "._from_dict(data)"]) :=
    List.mem_flatMap.mpr ⟨p, hp, List.mem_cons_self _ _⟩
  unfold pythonInitLines
  simp only [List.mem_append]
  tauto

/-- Concrete packet used by the C5 witness and counterexample. -/
def loginPacket : PacketDefinition :=
  mkPacketDefinition "user/login" { fields := [("user_id", FieldDef.str "int")] }

/-- Witness for the amended C5 at a concrete schema and identifier. -/
theorem dispatch_registered_and_unknown_witness :
    (("    " ++ "if packet_type == \"" ++ loginPacket.path ++ "\":")
        ∈ pythonInitLines "    " "packetType" [loginPacket]) ∧
    pythonDeserializeModel loginPacket.path [loginPacket] = .ok loginPacket ∧
    dartDeserializeModel loginPacket.path [loginPacket] = .ok loginPacket ∧
    tsDeserializeModel loginPacket.path [loginPacket] = .ok loginPacket ∧
    pythonDeserializeModel "nope" [loginPacket] = .error ("Unknown packet type: " ++ "nope") ∧
    dartDeserializeModel "nope" [loginPacket] = .error ("Unknown packet type: " ++ "nope") ∧
    tsDeserializeModel "nope" [loginPacket] = .error ("Unknown packet type: " ++ "nope") := by
  obtain ⟨h1, h2, h3, h4, h5, h6, h7⟩ :=
    dispatch_registered_and_unknown [loginPacket] loginPacket "nope" "    " "packetType"
      (List.mem_cons_self _ _) (by decide)
  refine ⟨h1, ?_, ?_, ?_, h5, h6, h7⟩
  · obtain ⟨q, hq, heq, -⟩ := h2
    have : q = loginPacket := by simpa using hq
    rw [this] at heq
    exact heq
  · obtain ⟨q, hq, heq, -⟩ := h3
    have : q = loginPacket := by simpa using hq
    rw [this] at heq
    exact heq
  · obtain ⟨q, hq, heq, -⟩ := h4
    have : q = loginPacket := by simpa using hq
    rw [this] at heq
    exact heq

/-- Counterexample to C5 as stated: the Rust emitter's base artifact
(`mod.rs`, its only shared artifact besides `Cargo.toml`) for the concrete
packet `user/login` contains no dispatch registration of the packet's dotted
path and no `Unknown packet type` failure at all, so the dispatch contract
does not hold for every target emitter. -/
theorem rust_base_artifact_no_dispatch :
    substrB ("Unknown packet type").data (rustGenerateMod [loginPacket]).data = false ∧
    substrB ("user/login").data (rustGenerateMod [loginPacket]).data = false := by decide

/-! ## Semantics of emitted Python decode expressions (claims C1, C8)

Python runtime values relevant to the generated packet classes.  `noneV` is
Python's `None`; a decode expression that raises is modelled by `Option.none`
at the outer level. -/

inductive PyVal where
  | noneV
  | boolV (b : Bool)
  | intV (n : Int)
  | strV (s : String)
  | listV (xs : List PyVal)
  | dictV (kvs : List (PyVal × PyVal))

/-- Python truthiness of the embedded values (`if getter` in the generated
decode expressions): `None`, `0`, `""`, `[]` and `\x7b\x7d` are falsy. -/
def pyTruthy : PyVal → Bool
  | .noneV => false
  | .boolV b => b
  | .intV n => n != 0
  | .strV s => s != ""
  | .listV xs => !xs.isEmpty
  | .dictV kvs => !kvs.isEmpty

/-- Embeds `data.get(name)` on a decoded top-level dictionary (string keys):
missing keys yield `None`. -/
def pyDictGet (data : List (String × PyVal)) (k : String) : PyVal :=
  ((data.find? (fun e => e.1 == k)).map Prod.snd).getD .noneV

/-- Python `int(x)` on the embedded values: exact on ints and bools, parses
clean decimal strings; anything else raises (other iterables and floats are
outside this embedding and are not exercised by the theorems below). -/
def pyIntFn : PyVal → Option PyVal
  | .intV n => some (.intV n)
  | .boolV b => some (.intV (cond b 1 0))
  | .strV s => s.toInt?.map (fun n => .intV n)
  | _ => Option.none

/-- Semantics of the decode expression emitted for a `list_int` field
(src/generate.py lines 796-797): `[int(x) for x in getter] if getter else
None`.  The truthiness test runs first, so a falsy getter (including a
present empty list) yields `None`. -/
def python_decode_list_int (getter : PyVal) : Option PyVal :=
  if pyTruthy getter then
    match getter with
    | .listV xs => (xs.mapM pyIntFn).map PyVal.listV
    | _ => Option.none
  else some .noneV

/-- Semantics of the decode expression emitted for `map`, `embedded_map` and
`map_string_dynamic` fields (src/generate.py lines 800-801): the getter value
is returned entirely unchanged. -/
def python_decode_embedded_map (getter : PyVal) : PyVal := getter

/-- The `_to_dict` entries emitted for a packet with a single `list_int`
field (src/generate.py lines 869-875 together with `python_encode`, lines
771-782, which returns `self.<name>` unchanged for list fields). -/
def python_to_dict_listint (typeField typeVal fieldName : String) (v : PyVal) :
    List (String × PyVal) :=
  [(typeField, .strV typeVal), (fieldName, v)]

/-- Are all keys of a (top-level) decoded map text? -/
def pyKeysText : PyVal → Bool
  | .dictV kvs => kvs.all (fun e => match e.1 with | .strV _ => true | _ => false)
  | _ => true

/-- Claim C1, evaluated at the failing input: for the Python emitter, a packet
instance whose `list_int` field holds the present empty list `[]` encodes to
a wire map carrying `[]`, but the decode expression maps it back to `None`
rather than `[]`, because the `if getter` truthiness test treats the empty
list as absent.  The same shared-dict path underlies both the JSON and the
MessagePack format. -/
theorem python_list_int_empty_roundtrip_bug :
    pyDictGet (python_to_dict_listint "packetType" "user/login" "tags" (PyVal.listV []))
        "tags" = PyVal.listV [] ∧
    python_decode_list_int
        (pyDictGet (python_to_dict_listint "packetType" "user/login" "tags"
          (PyVal.listV [])) "tags") = some PyVal.noneV ∧
    PyVal.noneV ≠ PyVal.listV [] :=
  ⟨rfl, rfl, fun h => PyVal.noConfusion h⟩

/-- Counterexample to C8 as stated: the Python emitter's decode expression for
an `embedded_map` field returns the decoded container unchanged, so a map
arriving from the binary decoder with a non-text key keeps that key: no
normalization happens for every target emitter. -/
theorem python_embedded_map_not_normalized :
    python_decode_embedded_map
        (pyDictGet [("m", PyVal.dictV [(PyVal.intV 1, PyVal.strV "x")])] "m")
      = PyVal.dictV [(PyVal.intV 1, PyVal.strV "x")] ∧
    pyKeysText (python_decode_embedded_map
        (pyDictGet [("m", PyVal.dictV [(PyVal.intV 1, PyVal.strV "x")])] "m")) = false :=
  ⟨rfl, rfl⟩

/-! ## Semantics of the emitted Dart deep-conversion helpers (claim C8) -/

/-- Dart runtime values seen by the generated `_deepConvertMap` helper. -/
inductive DVal where
  | nullV
  | boolV (b : Bool)
  | intV (n : Int)
  | strV (s : String)
  | listV (xs : List DVal)
  | mapV (kvs : List (DVal × DVal))

mutual

/-- Dart `toString()` on the embedded values (used for `key?.toString()`). -/
def dartToString : DVal → String
  | .nullV => "null"
  | .boolV b => cond b "true" "false"
  | .intV n => toString n
  | .strV s => s
  | .listV xs => "[" ++ dartToStringItems xs ++ "]"
  | .mapV kvs => "\x7b" ++ dartToStringEntries kvs ++ "\x7d"

def dartToStringItems : List DVal → String
  | [] => ""
  | [x] => dartToString x
  | x :: y :: rest => dartToString x ++ ", " ++ dartToStringItems (y :: rest)

def dartToStringEntries : List (DVal × DVal) → String
  | [] => ""
  | [(k, v)] => dartToString k ++ ": " ++ dartToString v
  | (k, v) :: e :: rest =>
    dartToString k ++ ": " ++ dartToString v ++ ", " ++ dartToStringEntries (e :: rest)

end

/-- The emitted key conversion `key?.toString() ?? ''`
(src/generate.py line 578). -/
def dartKeyToString : DVal → String
  | .nullV => ""
  | v => dartToString v

mutual

/-- The per-value branch shared by `_safeMapConvert` and `_safeListConvert`
(src/generate.py lines 566-589): maps and lists are converted recursively,
every other value passes through. -/
def convertValue : DVal → DVal
  | .mapV kvs => .mapV (safeMapConvert kvs)
  | .listV xs => .listV (safeListConvert xs)
  | v => v

/-- Embeds `_safeMapConvert` (src/generate.py lines 575-589): every key is coerced
to text and every value converted recursively. -/
def safeMapConvert : List (DVal × DVal) → List (DVal × DVal)
  | [] => []
  | (k, v) :: rest => (.strV (dartKeyToString k), convertValue v) :: safeMapConvert rest

/-- Embeds `_safeListConvert` (src/generate.py lines 566-573). -/
def safeListConvert : List DVal → List DVal
  | [] => []
  | x :: rest => convertValue x :: safeListConvert rest

end

/-- Embeds `_deepConvertMap` (src/generate.py lines 559-564): `null` and non-map
values become the empty map, maps are deep-converted. -/
def deepConvertMap : DVal → DVal
  | .mapV kvs => .mapV (safeMapConvert kvs)
  | _ => .mapV []

/-- Embeds `dart_decode` for an `embedded_map` field (src/generate.py line 407):
`json['name'] != null ? _deepConvertMap(json['name']) : null`. -/
def dartGet (json : List (String × DVal)) (k : String) : DVal :=
  ((json.find? (fun e => e.1 == k)).map Prod.snd).getD .nullV

def dart_decode_embedded_map (json : List (String × DVal)) (name : String) : DVal :=
  match dartGet json name with
  | .nullV => .nullV
  | v => deepConvertMap v

mutual

/-- Deep normalization: every map key, at every depth, is text, and every
nested list and map has been walked. -/
def normalizedB : DVal → Bool
  | .mapV kvs => normalizedEntries kvs
  | .listV xs => normalizedItems xs
  | _ => true

def normalizedEntries : List (DVal × DVal) → Bool
  | [] => true
  | (k, v) :: rest =>
    (match k with | .strV _ => true | _ => false) && normalizedB v && normalizedEntries rest

def normalizedItems : List DVal → Bool
  | [] => true
  | x :: rest => normalizedB x && normalizedItems rest

end

mutual

theorem convertValue_normalized (v : DVal) : normalizedB (convertValue v) = true :=
  match v with
  | .mapV kvs => by simp [convertValue, normalizedB, safeMapConvert_normalized kvs]
  | .listV xs => by simp [convertValue, normalizedB, safeListConvert_normalized xs]
  | .nullV => rfl
  | .boolV _ => rfl
  | .intV _ => rfl
  | .strV _ => rfl

theorem safeMapConvert_normalized (kvs : List (DVal × DVal)) :
    normalizedEntries (safeMapConvert kvs) = true :=
  match kvs with
  | [] => rfl
  | (k, v) :: rest => by
    simp [safeMapConvert, normalizedEntries, convertValue_normalized v,
      safeMapConvert_normalized rest]

theorem safeListConvert_normalized (xs : List DVal) :
    normalizedItems (safeListConvert xs) = true :=
  match xs with
  | [] => rfl
  | x :: rest => by
    simp [safeListConvert, normalizedItems, convertValue_normalized x,
      safeListConvert_normalized rest]

end

/-- Claim C8, amended: the Dart emitter's decode routine for an embedded-map
field recursively normalizes the decoded container: every map key at every
depth is coerced to text and every nested list and map is walked (an absent
field decodes to `null`, which is trivially normalized).  The Python emitter,
by contrast, returns decoded containers unchanged (see the counterexample). -/
theorem dart_embedded_map_decode_normalized (json : List (String × DVal)) (name : String) :
    normalizedB (dart_decode_embedded_map json name) = true := by
  unfold dart_decode_embedded_map
  cases hv : dartGet json name with
  | nullV => rfl
  | boolV b => simp [deepConvertMap, normalizedB, normalizedEntries]
  | intV n => simp [deepConvertMap, normalizedB, normalizedEntries]
  | strV s => simp [deepConvertMap, normalizedB, normalizedEntries]
  | listV xs => simp [deepConvertMap, normalizedB, normalizedEntries]
  | mapV kvs => simp [deepConvertMap, normalizedB, safeMapConvert_normalized kvs]

/-! ## Date-time serialization shape (claim C7) -/

/-- Dart `padLeft(w, c)` on the character-list model: pad on the left up to
width `w` (no-op when already at least that long). -/
def padLeft (s : List Char) (w : Nat) (c : Char) : List Char :=
  List.replicate (w - s.length) c ++ s

/-- Embeds `n.toString().padLeft(w, '0')`. -/
def padNat (w n : Nat) : List Char := padLeft (Nat.repr n).data w '0'

/-- The Dart `DateTime` components used by the emitted
`_formatDateTimeWithTimezone`; the time-zone offset is in minutes (Dart
`Duration` offsets have minute precision). -/
structure DartDateTime where
  year : Nat
  month : Nat
  day : Nat
  hour : Nat
  minute : Nat
  second : Nat
  millisecond : Nat
  offsetMinutes : Int
deriving Repr

/-- Semantics of the emitted Dart `_formatDateTimeWithTimezone`
(src/generate.py lines 535-554): zero-padded date and time components, three
millisecond digits, and a signed numeric offset built from
`offset.isNegative`, `offset.abs().inHours` and `offset.abs().inMinutes % 60`. -/
def dartFormatDateTimeWithTimezone (dt : DartDateTime) : String :=
  let offsetSign : Char := if dt.offsetMinutes < 0 then '-' else '+'
  let offAbs : Nat := dt.offsetMinutes.natAbs
  ⟨padNat 4 dt.year ++ ('-' :: (padNat 2 dt.month ++ ('-' :: (padNat 2 dt.day ++
   ('T' :: (padNat 2 dt.hour ++ (':' :: (padNat 2 dt.minute ++ (':' ::
   (padNat 2 dt.second ++ ('.' :: (padNat 3 dt.millisecond ++ (offsetSign ::
   (padNat 2 (offAbs / 60) ++ (':' :: padNat 2 (offAbs % 60))))))))))))))))⟩

/-- The UTC components of a JavaScript `Date`. -/
structure JsDate where
  year : Nat
  month : Nat
  day : Nat
  hour : Nat
  minute : Nat
  second : Nat
  millisecond : Nat
deriving Repr

/-- Modelled from the ECMAScript specification of `Date.prototype.toISOString`
(for years 0-9999): the UTC components zero-padded with three millisecond
digits, always terminated by the literal `Z` designator. -/
def jsToISOString (d : JsDate) : String :=
  ⟨padNat 4 d.year ++ ('-' :: (padNat 2 d.month ++ ('-' :: (padNat 2 d.day ++
   ('T' :: (padNat 2 d.hour ++ (':' :: (padNat 2 d.minute ++ (':' ::
   (padNat 2 d.second ++ ('.' :: (padNat 3 d.millisecond ++ ['Z']))))))))))))⟩

/-- The datetime encode expression emitted by the TypeScript generator
(src/generate.py lines 1839-1842): `this.<field>.toISOString()`. -/
def tsEncodeDatetimeValue (d : JsDate) : String := jsToISOString d

/-- Consume exactly `k` decimal digits. -/
def digitsRun : Nat → List Char → Option (List Char)
  | 0, rest => some rest
  | k+1, c :: rest => if c.isDigit then digitsRun k rest else Option.none
  | _+1, [] => Option.none

/-- Consume exactly the literal character `c`. -/
def litCh (c : Char) : List Char → Option (List Char)
  | d :: rest => if d = c then some rest else Option.none
  | [] => Option.none

/-- Consume an explicit numeric offset sign. -/
def signCh : List Char → Option (List Char)
  | d :: rest => if d = '+' ∨ d = '-' then some rest else Option.none
  | [] => Option.none

/-- The `YYYY-MM-DDT` part of the required date-time shape. -/
def isoDatePart (l : List Char) : Option (List Char) :=
  (digitsRun 4 l).bind (fun r =>
  (litCh '-' r).bind (fun r =>
  (digitsRun 2 r).bind (fun r =>
  (litCh '-' r).bind (fun r =>
  (digitsRun 2 r).bind (fun r =>
  litCh 'T' r)))))

/-- The `HH:MM:SS.` part followed by exactly three fractional digits. -/
def isoTimePart (l : List Char) : Option (List Char) :=
  (digitsRun 2 l).bind (fun r =>
  (litCh ':' r).bind (fun r =>
  (digitsRun 2 r).bind (fun r =>
  (litCh ':' r).bind (fun r =>
  (digitsRun 2 r).bind (fun r =>
  (litCh '.' r).bind (fun r =>
  digitsRun 3 r))))))

/-- The explicit signed numeric offset `±HH:MM`. -/
def isoOffsetPart (l : List Char) : Option (List Char) :=
  (signCh l).bind (fun r =>
  (digitsRun 2 r).bind (fun r =>
  (litCh ':' r).bind (fun r =>
  digitsRun 2 r)))

/-- The exact serialized date-time shape required by the specification:
zero-padded `YYYY-MM-DDTHH:MM:SS`, exactly three fractional-second digits,
and an explicit signed numeric UTC offset `±HH:MM`, with nothing following
(in particular a bare `Z` designator is rejected). -/
def isoShape (l : List Char) : Bool :=
  match (isoDatePart l).bind (fun r => (isoTimePart r).bind isoOffsetPart) with
  | some [] => true
  | _ => false

theorem digitChar_isDigit : ∀ m, m < 10 → (Nat.digitChar m).isDigit = true := by decide

theorem toDigitsCore_digits (f : Nat) :
    ∀ (n : Nat) (l : List Char), (∀ c ∈ l, c.isDigit = true) →
    ∀ c ∈ Nat.toDigitsCore 10 f n l, c.isDigit = true := by
  induction f with
  | zero =>
    intro n l hl c hc
    exact hl c hc
  | succ f ih =>
    intro n l hl c hc
    have hmod : (Nat.digitChar (n % 10)).isDigit = true :=
      digitChar_isDigit _ (Nat.mod_lt _ (by norm_num))
    have hext : ∀ d ∈ Nat.digitChar (n % 10) :: l, d.isDigit = true := by
      intro d hd
      rcases List.mem_cons.mp hd with rfl | hd2
      · exact hmod
      · exact hl d hd2
    simp only [Nat.toDigitsCore] at hc
    by_cases hz : n / 10 = 0
    · rw [if_pos hz] at hc
      exact hext c hc
    · rw [if_neg hz] at hc
      exact ih (n / 10) _ hext c hc

theorem repr_all_digits (n : Nat) : ∀ c ∈ (Nat.repr n).data, c.isDigit = true := by
  intro c hc
  have hrepr : (Nat.repr n).data = Nat.toDigitsCore 10 (n + 1) n [] := rfl
  rw [hrepr] at hc
  exact toDigitsCore_digits (n + 1) n [] (by simp) c hc

theorem padNat_length (w n : Nat) (hw : 0 < w) (h : n < 10 ^ w) :
    (padNat w n).length = w := by
  have hlen : (Nat.repr n).length ≤ w := Nat.repr_length n w hw h
  have hdata : (Nat.repr n).data.length ≤ w := hlen
  simp only [padNat, padLeft, List.length_append, List.length_replicate]
  omega

theorem padNat_digits (w n : Nat) : ∀ c ∈ padNat w n, c.isDigit = true := by
  intro c hc
  rcases List.mem_append.mp hc with hrep | hmem
  · have := List.eq_of_mem_replicate hrep
    subst this
    decide
  · exact repr_all_digits n c hmem

theorem digitsRun_exact (s : List Char) (rest : List Char)
    (hdig : ∀ c ∈ s, c.isDigit = true) :
    digitsRun s.length (s ++ rest) = some rest := by
  induction s with
  | nil => rfl
  | cons c cs ih =>
    have hc := hdig c (List.mem_cons_self _ _)
    have hcs := ih (fun d hd => hdig d (List.mem_cons_of_mem _ hd))
    simp [digitsRun, hc, hcs]

theorem run_pad (w n : Nat) (hw : 0 < w) (h : n < 10 ^ w) (rest : List Char) :
    digitsRun w (padNat w n ++ rest) = some rest := by
  have := digitsRun_exact (padNat w n) rest (padNat_digits w n)
  rwa [padNat_length w n hw h] at this

theorem run_pad_all (w n : Nat) (hw : 0 < w) (h : n < 10 ^ w) :
    digitsRun w (padNat w n) = some [] := by
  have := run_pad w n hw h []
  simpa using this

theorem litCh_cons (c : Char) (rest : List Char) : litCh c (c :: rest) = some rest := by
  simp [litCh]

theorem signCh_cons {s : Char} (rest : List Char) (hs : s = '+' ∨ s = '-') :
    signCh (s :: rest) = some rest := by
  simp [signCh, hs]

/-- Claim C7, amended: the Dart emitter's date-time serializer produces
exactly the specified shape, for every in-range date-time value: zero-padded
year, month, day, hour, minute and second, exactly three millisecond digits,
and an explicit signed numeric UTC offset, never a bare `Z`. -/
theorem dart_datetime_format_shape (dt : DartDateTime)
    (hy : dt.year < 10000) (hmo : dt.month < 100) (hd : dt.day < 100)
    (hh : dt.hour < 100) (hmi : dt.minute < 100) (hs : dt.second < 100)
    (hms : dt.millisecond < 1000) (hoff : dt.offsetMinutes.natAbs < 6000) :
    isoShape (dartFormatDateTimeWithTimezone dt).data = true := by
  have hy4 : dt.year < 10 ^ 4 := by norm_num; omega
  have hmo2 : dt.month < 10 ^ 2 := by norm_num; omega
  have hd2 : dt.day < 10 ^ 2 := by norm_num; omega
  have hh2 : dt.hour < 10 ^ 2 := by norm_num; omega
  have hmi2 : dt.minute < 10 ^ 2 := by norm_num; omega
  have hs2 : dt.second < 10 ^ 2 := by norm_num; omega
  have hms3 : dt.millisecond < 10 ^ 3 := by norm_num; omega
  have hoh : dt.offsetMinutes.natAbs / 60 < 10 ^ 2 := by
    have : dt.offsetMinutes.natAbs / 60 < 100 :=
      Nat.div_lt_of_lt_mul (by omega)
    norm_num
    omega
  have hom : dt.offsetMinutes.natAbs % 60 < 10 ^ 2 := by
    have : dt.offsetMinutes.natAbs % 60 < 60 := Nat.mod_lt _ (by norm_num)
    norm_num
    omega
  have hsign : (if dt.offsetMinutes < 0 then '-' else '+') = '+' ∨
      (if dt.offsetMinutes < 0 then '-' else '+') = '-' := by
    by_cases hneg : dt.offsetMinutes < 0
    · right; simp [hneg]
    · left; simp [hneg]
  have e1 := run_pad 4 dt.year (by norm_num) hy4
  have e2 := run_pad 2 dt.month (by norm_num) hmo2
  have e3 := run_pad 2 dt.day (by norm_num) hd2
  have e4 := run_pad 2 dt.hour (by norm_num) hh2
  have e5 := run_pad 2 dt.minute (by norm_num) hmi2
  have e6 := run_pad 2 dt.second (by norm_num) hs2
  have e7 := run_pad 3 dt.millisecond (by norm_num) hms3
  have e8 := run_pad 2 (dt.offsetMinutes.natAbs / 60) (by norm_num) hoh
  have e9 := run_pad_all 2 (dt.offsetMinutes.natAbs % 60) (by norm_num) hom
  have esign := signCh_cons (padNat 2 (dt.offsetMinutes.natAbs / 60) ++
    (':' :: padNat 2 (dt.offsetMinutes.natAbs % 60))) hsign
  simp only [dartFormatDateTimeWithTimezone, isoShape, isoDatePart, isoTimePart,
    isoOffsetPart, Option.some_bind, e1, e2, e3, e4, e5, e6, e7, e8, e9, esign,
    litCh_cons]

/-- Witness for the amended C7 at a concrete date-time with offset +05:30. -/
theorem dart_datetime_format_shape_witness :
    isoShape (dartFormatDateTimeWithTimezone
      { year := 2024, month := 1, day := 2, hour := 3, minute := 4, second := 5,
        millisecond := 6, offsetMinutes := 330 }).data = true :=
  dart_datetime_format_shape _ (by decide) (by decide) (by decide) (by decide)
    (by decide) (by decide) (by decide) (by decide)

/-- Counterexample to C7 as stated: the TypeScript emitter serializes
date-time fields with `toISOString()`, which converts to UTC and terminates
with a bare `Z` designator instead of a signed numeric offset, so the
serialized value does not have the required shape. -/
theorem ts_datetime_bare_z :
    tsEncodeDatetimeValue
        { year := 2024, month := 5, day := 6, hour := 7, minute := 8, second := 9,
          millisecond := 123 } = "2024-05-06T07:08:09.123Z" ∧
    isoShape (tsEncodeDatetimeValue
        { year := 2024, month := 5, day := 6, hour := 7, minute := 8, second := 9,
          millisecond := 123 }).data = false := by
  constructor
  · decide
  · decide

end CrossPacket
